import Mathlib

/-!
Verification of the request-orchestration logic of
src/Crawler/YoutubeData/YoutubeCrawler.py (class YoutubeCrawler).

The Python code is shallowly embedded: each method becomes a Lean
definition over explicit data; the external API is modelled by a trace of
scripted call outcomes; Python exceptions become an explicit error type;
machine behaviour that the code relies on (dict insertion order, iterator
exhaustion, use of an unbound local variable) is modelled explicitly.
-/

/-- Python exceptions that the embedded code can raise or propagate. -/
inductive PyErr where
  | stopIteration
  | nameError (name : String)
  | valueError
  deriving DecidableEq, Repr

deriving instance DecidableEq for Except

/-- Python values as they appear in keyword-argument dictionaries. -/
inductive PyVal where
  | none
  | bool (b : Bool)
  | int (n : Int)
  | str (s : String)
  | list (xs : List PyVal)

/-- Python truthiness of a value (bool(v)): None, False, 0, empty string and
empty collection are falsy; everything else is truthy. -/
def PyVal.truthy : PyVal → Bool
  | .none => false
  | .bool b => b
  | .int n => n != 0
  | .str s => !s.isEmpty
  | .list xs => !xs.isEmpty

/-- Embedding of the static method remove-empty-kwargs (lines 26-37): builds a
new kwargs dictionary keeping exactly the entries whose value is truthy.
Python dicts preserve insertion order, so a dict is an association list. -/
def remove_empty_kwargs (kwargs : List (String × PyVal)) : List (String × PyVal) :=
  kwargs.filter (fun kv => kv.2.truthy)

/-- Decimal digits accumulated left to right; a non-digit character fails. -/
def parseDigitsAux : List Char → Nat → Option Nat
  | [], acc => some acc
  | c :: cs, acc =>
    if c.isDigit then parseDigitsAux cs (acc * 10 + (c.toNat - 48)) else Option.none

/-- A nonempty all-digit character list parses to its decimal value. -/
def parseDigits : List Char → Option Nat
  | [] => Option.none
  | cs => parseDigitsAux cs 0

/-- Embedding of Python int(s) on a string: an optional minus sign followed
by at least one decimal digit yields the integer; anything else raises
ValueError. -/
def pyInt (s : String) : Except PyErr Int :=
  match s.data with
  | '-' :: cs =>
    match parseDigits cs with
    | some n => .ok (-(n : Int))
    | Option.none => .error .valueError
  | cs =>
    match parseDigits cs with
    | some n => .ok ((n : Int))
    | Option.none => .error .valueError

/-- Embedding of Python str.isdigit: true exactly on nonempty all-digit strings. -/
def pyIsdigit (s : String) : Bool :=
  !s.data.isEmpty && s.data.all Char.isDigit

/-- Embedding of Python range(start, stop, step) for a positive step:
the indices start, start+step, ... strictly below stop. -/
def rangeStepPos (start stop step : Nat) (hstep : 0 < step) : List Nat :=
  if start < stop then start :: rangeStepPos (start + step) stop step hstep else []
termination_by stop - start
decreasing_by omega

/-- Embedding of Python range(start, stop, step); a zero step raises
ValueError in Python and never occurs in this code (the only call site uses
step = n with the claims requiring 0 < n), modelled as the empty range. -/
def pyRangeStep (start stop step : Nat) : List Nat :=
  if hstep : 0 < step then rangeStepPos start stop step hstep else []

/-- Embedding of the static method split-list (lines 85-101): for i in
range(0, len(l), n) append the slice l[i:i+n].  A Python slice l[i:i+n]
is (l.drop i).take n. -/
def split_list (l : List α) (n : Nat) : List (List α) :=
  (pyRangeStep 0 l.length n).map (fun i => (l.drop i).take n)

theorem rangeStepPos_unfold (start stop step : Nat) (h : 0 < step) :
    rangeStepPos start stop step h =
      if start < stop then start :: rangeStepPos (start + step) stop step h else [] := by
  rw [rangeStepPos]

theorem rangeStepPos_shift_aux (step : Nat) (h : 0 < step) (d : Nat) :
    ∀ k start stop, stop - start ≤ k → rangeStepPos (start + d) (stop + d) step h =
      (rangeStepPos start stop step h).map (fun i => i + d) := by
  intro k
  induction k with
  | zero =>
    intro start stop hk
    rw [rangeStepPos_unfold start stop, rangeStepPos_unfold (start + d) (stop + d)]
    have h1 : ¬ start < stop := by omega
    have h2 : ¬ start + d < stop + d := by omega
    simp [h1, h2]
  | succ k ih =>
    intro start stop hk
    rw [rangeStepPos_unfold start stop, rangeStepPos_unfold (start + d) (stop + d)]
    by_cases hlt : start < stop
    · have hlt' : start + d < stop + d := by omega
      simp only [hlt, hlt', if_true, List.map_cons]
      have hrec := ih (start + step) stop (by omega)
      have harg : start + d + step = start + step + d := by omega
      rw [harg, hrec]
    · have hlt' : ¬ start + d < stop + d := by omega
      simp [hlt, hlt']

theorem rangeStepPos_shift (step : Nat) (h : 0 < step) (d start stop : Nat) :
    rangeStepPos (start + d) (stop + d) step h =
      (rangeStepPos start stop step h).map (fun i => i + d) :=
  rangeStepPos_shift_aux step h d (stop - start) start stop le_rfl

/-- Unfolding equation of split-list for a positive chunk size: the first
chunk is l.take n and the rest is split-list of l.drop n. -/
theorem split_list_eq (l : List α) (n : Nat) (h : 0 < n) :
    split_list l n = if l.isEmpty then [] else l.take n :: split_list (l.drop n) n := by
  unfold split_list pyRangeStep
  simp only [dif_pos h]
  by_cases hl : l.isEmpty
  · have : l.length = 0 := by simpa [List.isEmpty_iff_length_eq_zero] using hl
    rw [rangeStepPos_unfold]
    simp [this, hl]
  · have hlen : 0 < l.length := by
      cases l with
      | nil => simp at hl
      | cons a l => simp
    rw [rangeStepPos_unfold]
    simp only [hlen, if_true, List.map_cons, List.drop_zero, if_neg hl, Nat.zero_add]
    congr 1
    have hdrop : (l.drop n).length = l.length - n := by simp
    rw [hdrop]
    by_cases hn : n < l.length
    · have key : rangeStepPos n l.length n h =
          (rangeStepPos 0 (l.length - n) n h).map (fun i => i + n) := by
        have hsh := rangeStepPos_shift n h n 0 (l.length - n)
        rw [Nat.zero_add, Nat.sub_add_cancel (Nat.le_of_lt hn)] at hsh
        exact hsh
      rw [key, List.map_map]
      congr 1
      funext i
      simp only [Function.comp_apply, List.drop_drop]
      rw [Nat.add_comm]
    · have h1 : rangeStepPos n l.length n h = [] := by
        rw [rangeStepPos_unfold]; simp [hn]
      have h2 : l.length - n = 0 := by omega
      rw [h1, h2, rangeStepPos_unfold]
      simp

theorem split_list_nil (n : Nat) : split_list ([] : List α) n = [] := by
  unfold split_list pyRangeStep
  by_cases h : 0 < n
  · simp only [dif_pos h]
    rw [rangeStepPos_unfold]
    simp
  · simp [h]

theorem split_list_flatten_aux (n : Nat) (h : 0 < n) :
    ∀ k (l : List α), l.length ≤ k → (split_list l n).flatten = l := by
  intro k
  induction k with
  | zero =>
    intro l hl
    have : l = [] := by
      cases l with
      | nil => rfl
      | cons a l => simp at hl
    subst this
    simp [split_list_nil]
  | succ k ih =>
    intro l hl
    rw [split_list_eq l n h]
    by_cases hnil : l.isEmpty
    · simp [List.isEmpty_iff] at hnil
      simp [hnil]
    · rw [if_neg hnil, List.flatten_cons]
      have hlen : 0 < l.length := by
        cases l with
        | nil => simp at hnil
        | cons a l => simp
      rw [ih (l.drop n) (by simp [List.length_drop]; omega)]
      exact List.take_append_drop n l

theorem split_list_chunk_size_aux (n : Nat) (h : 0 < n) :
    ∀ k (l : List α), l.length ≤ k →
      ∀ c ∈ split_list l n, 0 < c.length ∧ c.length ≤ n := by
  intro k
  induction k with
  | zero =>
    intro l hl c hc
    have : l = [] := by
      cases l with
      | nil => rfl
      | cons a l => simp at hl
    subst this
    rw [split_list_nil] at hc
    simp at hc
  | succ k ih =>
    intro l hl c hc
    rw [split_list_eq l n h] at hc
    by_cases hnil : l.isEmpty
    · simp [hnil] at hc
    · rw [if_neg hnil] at hc
      have hlen : 0 < l.length := by
        cases l with
        | nil => simp at hnil
        | cons a l => simp
      rcases List.mem_cons.mp hc with hc | hc
      · subst hc
        constructor
        · simp; omega
        · simp
      · exact ih (l.drop n) (by simp [List.length_drop]; omega) c hc

theorem split_list_count_aux (n : Nat) (h : 0 < n) :
    ∀ k (l : List α), l.length ≤ k →
      (split_list l n).length = (l.length + n - 1) / n := by
  intro k
  induction k with
  | zero =>
    intro l hl
    have : l = [] := by
      cases l with
      | nil => rfl
      | cons a l => simp at hl
    subst this
    rw [split_list_nil]
    have h0 : (n - 1) / n = 0 := Nat.div_eq_of_lt (by omega)
    simp [h0]
  | succ k ih =>
    intro l hl
    rw [split_list_eq l n h]
    by_cases hnil : l.isEmpty
    · simp [List.isEmpty_iff] at hnil
      have h0 : (n - 1) / n = 0 := Nat.div_eq_of_lt (by omega)
      simp [hnil, split_list_nil, h0]
    · have hlen : 0 < l.length := by
        cases l with
        | nil => simp at hnil
        | cons a l => simp
      rw [if_neg hnil, List.length_cons]
      rw [ih (l.drop n) (by simp [List.length_drop]; omega)]
      rw [List.length_drop]
      have heq : l.length + n - 1 = (l.length - 1) + n := by omega
      rw [heq, Nat.add_div_right _ h]
      by_cases hln : n < l.length
      · have heq2 : l.length - n + n - 1 = l.length - 1 := by omega
        rw [heq2]
      · have h0 : l.length - n = 0 := by omega
        rw [h0]
        have h1 : (0 + n - 1) / n = 0 := Nat.div_eq_of_lt (by omega)
        have h2 : (l.length - 1) / n = 0 := Nat.div_eq_of_lt (by omega)
        rw [h1, h2]

theorem split_list_full_chunks_aux (n : Nat) (h : 0 < n) :
    ∀ k (l : List α), l.length ≤ k →
      ∀ c ∈ (split_list l n).dropLast, c.length = n := by
  intro k
  induction k with
  | zero =>
    intro l hl c hc
    have : l = [] := by
      cases l with
      | nil => rfl
      | cons a l => simp at hl
    subst this
    rw [split_list_nil] at hc
    simp at hc
  | succ k ih =>
    intro l hl c hc
    rw [split_list_eq l n h] at hc
    by_cases hnil : l.isEmpty
    · simp [hnil] at hc
    · have hlen : 0 < l.length := by
        cases l with
        | nil => simp at hnil
        | cons a l => simp
      rw [if_neg hnil] at hc
      rcases hrest : split_list (l.drop n) n with _ | ⟨r, rs⟩
      · rw [hrest] at hc
        simp at hc
      · rw [hrest, List.dropLast_cons₂] at hc
        have hdropne : ¬ (l.drop n).isEmpty := by
          intro hdrop
          rw [split_list_eq (l.drop n) n h, if_pos hdrop] at hrest
          exact List.noConfusion hrest
        have hn : n < l.length := by
          simp only [List.isEmpty_iff, List.drop_eq_nil_iff] at hdropne
          omega
        rcases List.mem_cons.mp hc with hc1 | hc2
        · subst hc1
          simp only [List.length_take]
          omega
        · rw [← hrest] at hc2
          exact ih (l.drop n) (by simp [List.length_drop]; omega) c hc2

/-- C5: for every filter mapping passed through remove-empty-kwargs, the
resulting filter set contains a pair exactly when the pair is in the input
and its value is truthy: no key with a falsy value (empty string, zero,
empty collection, None, False) survives, and every key with a truthy value
passes through with its value unchanged. -/
theorem remove_empty_kwargs_filters (kwargs : List (String × PyVal)) (k : String) (v : PyVal) :
    (k, v) ∈ remove_empty_kwargs kwargs ↔ ((k, v) ∈ kwargs ∧ v.truthy = true) := by
  unfold remove_empty_kwargs
  rw [List.mem_filter]

/-- C9: for every list and every positive chunk size, concatenating the
chunks produced by split-list in order restores the original list exactly,
and every chunk is nonempty. -/
theorem split_list_flatten_eq (l : List α) (n : Nat) (h : 0 < n) :
    (split_list l n).flatten = l ∧ ∀ c ∈ split_list l n, c ≠ [] := by
  constructor
  · exact split_list_flatten_aux n h l.length l le_rfl
  · intro c hc
    have := (split_list_chunk_size_aux n h l.length l le_rfl c hc).1
    intro hnil
    subst hnil
    simp at this

/-- Witness for C9 at a concrete input. -/
theorem split_list_flatten_eq_witness :
    (split_list [1, 2, 3] 2).flatten = [1, 2, 3] ∧ ∀ c ∈ split_list [1, 2, 3] 2, c ≠ [] :=
  split_list_flatten_eq [1, 2, 3] 2 (by decide)

/-- C8: for every list longer than 50 elements, split-list with size 50
produces exactly ceil(n/50) chunks, every chunk before the last has length
exactly 50, and every chunk is nonempty with length at most 50. -/
theorem split_list_chunks_50 (l : List α) (hlen : 50 < l.length) :
    (split_list l 50).length = (l.length + 49) / 50 ∧
    (∀ c ∈ (split_list l 50).dropLast, c.length = 50) ∧
    (∀ c ∈ split_list l 50, 0 < c.length ∧ c.length ≤ 50) := by
  refine ⟨?_, ?_, ?_⟩
  · have := split_list_count_aux 50 (by omega) l.length l le_rfl
    simpa using this
  · exact split_list_full_chunks_aux 50 (by omega) l.length l le_rfl
  · exact split_list_chunk_size_aux 50 (by omega) l.length l le_rfl

/-- Witness for C8 at a concrete input of length 51. -/
theorem split_list_chunks_50_witness :
    (split_list (List.range 51) 50).length = ((List.range 51).length + 49) / 50 ∧
    (∀ c ∈ (split_list (List.range 51) 50).dropLast, c.length = 50) ∧
    (∀ c ∈ split_list (List.range 51) 50, 0 < c.length ∧ c.length ≤ 50) :=
  split_list_chunks_50 (List.range 51) (by simp)

/-- Embedding of next(self.api_key_iter): the iterator over api_key_list is
a cursor idx counting the keys consumed so far.  Yields key idx and advances
the cursor, or raises StopIteration when the pool is exhausted. -/
def nextKey (api_key_list : List String) (idx : Nat) : Except PyErr (String × Nat) :=
  match api_key_list[idx]? with
  | some k => .ok (k, idx + 1)
  | Option.none => .error .stopIteration

/-- State of a YoutubeCrawler instance relevant to the orchestration logic:
the iterator cursor into api_key_list and the developer key the current
client session was built with (build rebinds self.client). -/
structure Crawler where
  api_key_idx : Nat
  client : String
  processes : Nat
  thread : Bool
  deriving DecidableEq, Repr

/-- Embedding of YoutubeCrawler.__init__ (lines 13-24): creates the key
iterator and builds the client with its first key; an empty key list makes
the initial next() raise StopIteration. -/
def crawlerInit (api_key_list : List String) (processes : Nat) (thread : Bool) :
    Except PyErr Crawler :=
  match nextKey api_key_list 0 with
  | .ok (k, idx) => .ok ⟨idx, k, processes, thread⟩
  | .error e => .error e

/-- Outcome of one execute() call against the external API, as scripted by a
trace: either a response value or an HttpError with an HTTP status. -/
inductive ApiOutcome (Resp : Type) where
  | success (resp : Resp)
  | httpError (status : Nat)
  deriving DecidableEq, Repr

/-- The four resource names for which the while-loop of the response method
issues an API call (lines 57-75); any other name matches no branch. -/
def knownResource (resource : String) : Bool :=
  resource == "channels" || resource == "search" || resource == "videos" ||
    resource == "playlistitems"

/-- Result of running the retry loop of the response method against a finite
scripted trace with a finite iteration budget. -/
inductive LoopResult (Resp : Type) where
  /-- The loop returned this response, leaving the key cursor and client
  session in this state. -/
  | done (resp : Resp) (api_key_idx : Nat) (client : String)
  /-- An uncaught exception escaped the loop (only StopIteration from key
  rotation can). -/
  | raised (e : PyErr)
  /-- The loop wants to issue one more API call than the scripted trace
  provides. -/
  | outOfTrace (api_key_idx : Nat) (client : String)
  /-- The iteration budget ran out with the loop still spinning. -/
  | spinning (api_key_idx : Nat) (client : String)
  deriving DecidableEq, Repr

/-- Embedding of the while-loop of the response method (lines 51-83).  The
external API is a trace of scripted call outcomes, one consumed per issued
call; truthy decides Python truthiness of a returned response (the loop
repeats on a falsy, i.e. empty, response).  On HttpError with status 403 the
next key is drawn and the client rebuilt before retrying; StopIteration from
an exhausted pool is not caught; any other status retries with the same key.
An unknown resource name matches no branch, so no call is issued and the
response stays None. -/
def responseModel (truthy : Resp → Bool) (api_key_list : List String) (resource : String) :
    Nat → List (ApiOutcome Resp) → Nat → String → LoopResult Resp
  | 0, _, idx, client => .spinning idx client
  | fuel + 1, trace, idx, client =>
    if knownResource resource then
      match trace with
      | [] => .outOfTrace idx client
      | outcome :: rest =>
        match outcome with
        | .success resp =>
          if truthy resp then .done resp idx client
          else responseModel truthy api_key_list resource fuel rest idx client
        | .httpError status =>
          if status = 403 then
            match nextKey api_key_list idx with
            | .ok (k, idx') => responseModel truthy api_key_list resource fuel rest idx' k
            | .error e => .raised e
          else responseModel truthy api_key_list resource fuel rest idx client
    else
      responseModel truthy api_key_list resource fuel trace idx client

/-- An API call outcome on which the retry loop keeps looping: an error of
any status, or a response that is falsy (empty). -/
def nonFinal (truthy : Resp → Bool) : ApiOutcome Resp → Bool
  | .success resp => !truthy resp
  | .httpError _ => true

/-- Whether an outcome is an HttpError with status 403. -/
def is403 : ApiOutcome Resp → Bool
  | .httpError status => status == 403
  | .success _ => false

/-- Number of quota failures (status 403) in a trace: each one costs one key. -/
def count403 (trace : List (ApiOutcome Resp)) : Nat :=
  trace.countP is403

theorem countP_cons_403 (s : Nat) (pre : List (ApiOutcome Resp)) :
    count403 (ApiOutcome.httpError s :: pre) =
      count403 pre + if s == 403 then 1 else 0 := by
  simp [count403, List.countP_cons, is403]

theorem countP_cons_success (r : Resp) (pre : List (ApiOutcome Resp)) :
    count403 (ApiOutcome.success r :: pre) = count403 pre := by
  simp [count403, List.countP_cons, is403]

theorem client_step (keys : List String) (idx c : Nat) (client k : String)
    (hk : keys[idx]? = some k) (hlen : idx + c < keys.length) :
    (if c = 0 then k else keys[idx + 1 + c - 1]?.getD k) =
      (if c + 1 = 0 then client else keys[idx + (c + 1) - 1]?.getD client) := by
  have h1 : idx + 1 + c - 1 = idx + c := by omega
  have h2 : idx + (c + 1) - 1 = idx + c := by omega
  rw [h1, h2]
  cases c with
  | zero => simp [hk]
  | succ c =>
    have ha : keys[idx + (c + 1)]? = some keys[idx + (c + 1)] :=
      List.getElem?_eq_getElem hlen
    simp [ha]

/-- C1: for every call of the response method on a supported resource, run
against a scripted trace of API outcomes in which every outcome before the
final one is an HttpError or an empty (falsy) response and the final one is
a non-empty response: the loop retries through every error and empty
response and returns the final response; each 403 advances the key cursor by
exactly one and rebuilds the client with the newly drawn key, errors of any
other status retry with the cursor and client unchanged, and no failure is
surfaced, the key pool lasting long enough that rotation never exhausts it. -/
theorem response_retry_rotation {Resp : Type} (truthy : Resp → Bool)
    (api_key_list : List String) (resource : String)
    (pre : List (ApiOutcome Resp)) (resp : Resp) (rest : List (ApiOutcome Resp)) :
    ∀ (idx : Nat) (client : String),
    knownResource resource = true →
    (∀ o ∈ pre, nonFinal truthy o = true) →
    truthy resp = true →
    idx + count403 pre ≤ api_key_list.length →
    responseModel truthy api_key_list resource (pre.length + 1)
        (pre ++ ApiOutcome.success resp :: rest) idx client =
      .done resp (idx + count403 pre)
        (if count403 pre = 0 then client
         else api_key_list[idx + count403 pre - 1]?.getD client) := by
  induction pre with
  | nil =>
    intro idx client hres hpre hresp _
    simp only [List.nil_append, List.length_nil, Nat.zero_add]
    unfold responseModel
    simp [hres, hresp, count403]
  | cons o pre ih =>
    intro idx client hres hpre hresp hkeys
    have hpre_tail : ∀ x ∈ pre, nonFinal truthy x = true := fun x hx =>
      hpre x (List.mem_cons_of_mem o hx)
    have ho : nonFinal truthy o = true := hpre o (List.mem_cons_self o pre)
    cases o with
    | success r =>
      have hr : truthy r = false := by simpa [nonFinal] using ho
      rw [countP_cons_success] at hkeys ⊢
      simp only [List.cons_append, List.length_cons]
      unfold responseModel
      simp only [hres, if_true, hr, Bool.false_eq_true, if_false]
      exact ih idx client hres hpre_tail hresp hkeys
    | httpError s =>
      by_cases hs : s = 403
      · subst hs
        rw [countP_cons_403] at hkeys ⊢
        simp only [beq_self_eq_true, if_true] at hkeys ⊢
        have hidx : idx < api_key_list.length := by omega
        have hk : api_key_list[idx]? = some api_key_list[idx] :=
          List.getElem?_eq_getElem hidx
        simp only [List.cons_append, List.length_cons]
        unfold responseModel
        simp only [hres, if_true, nextKey, hk]
        rw [ih (idx + 1) api_key_list[idx] hres hpre_tail hresp (by omega)]
        have harith : idx + 1 + count403 pre = idx + (count403 pre + 1) := by omega
        rw [client_step api_key_list idx (count403 pre) client
          api_key_list[idx] hk (by omega), harith]
      · rw [countP_cons_403] at hkeys ⊢
        have hbeq : (s == 403) = false := by simp [hs]
        simp only [hbeq, Bool.false_eq_true, if_false, Nat.add_zero] at hkeys ⊢
        simp only [List.cons_append, List.length_cons]
        unfold responseModel
        simp only [hres, if_true, hs, if_false]
        exact ih idx client hres hpre_tail hresp hkeys

/-- Witness for C1 at a concrete trace: a quota failure, an empty response
and a server error, then a non-empty response, starting from the second key
of a three-key pool; the loop returns the response with the pool advanced by
exactly the one 403. -/
theorem response_retry_rotation_witness :
    responseModel (fun n : Nat => n != 0) ["k0", "k1", "k2"] "videos" 4
        ([ApiOutcome.httpError 403, ApiOutcome.success 0, ApiOutcome.httpError 500] ++
          ApiOutcome.success 7 :: []) 1 "k0" =
      LoopResult.done 7 2 "k1" :=
  Eq.trans
    (response_retry_rotation (fun n : Nat => n != 0) ["k0", "k1", "k2"] "videos"
      [ApiOutcome.httpError 403, ApiOutcome.success 0, ApiOutcome.httpError 500] 7 []
      1 "k0" (by decide) (by decide) (by decide) (by decide))
    (by decide)

/-- C6: the key pool is consumed strictly in order, one key per draw: the
draw at cursor position idx yields exactly the key at index idx and only
moves the cursor forward by one (keys are never reused or replenished),
construction consumes the first key, and once the cursor has passed the last
key a further rotation request, as made by the 403 handler, raises
StopIteration, which is not caught and terminates the calling operation. -/
theorem key_pool_rotation (Resp : Type) (api_key_list : List String) (idx : Nat) :
    (∀ h : idx < api_key_list.length,
      nextKey api_key_list idx = .ok (api_key_list[idx], idx + 1)) ∧
    (api_key_list.length ≤ idx →
      nextKey api_key_list idx = .error .stopIteration) ∧
    (∀ (processes : Nat) (thread : Bool) (k : String) (keys : List String),
      api_key_list = k :: keys →
      crawlerInit api_key_list processes thread = .ok ⟨1, k, processes, thread⟩) ∧
    (∀ (truthy : Resp → Bool) (resource : String) (fuel : Nat)
        (trace : List (ApiOutcome Resp)) (client : String),
      knownResource resource = true → api_key_list.length ≤ idx →
      responseModel truthy api_key_list resource (fuel + 1)
          (ApiOutcome.httpError 403 :: trace) idx client =
        .raised PyErr.stopIteration) := by
  refine ⟨?_, ?_, ?_, ?_⟩
  · intro h
    unfold nextKey
    rw [List.getElem?_eq_getElem h]
  · intro h
    unfold nextKey
    rw [List.getElem?_eq_none h]
  · intro processes thread k keys heq
    subst heq
    simp [crawlerInit, nextKey]
  · intro truthy resource fuel trace client hres hlen
    unfold responseModel
    simp only [hres, if_true]
    unfold nextKey
    rw [List.getElem?_eq_none hlen]

/-- Witness for C6 at a concrete two-key pool. -/
theorem key_pool_rotation_witness :
    nextKey ["a", "b"] 1 = Except.ok ("b", 2) ∧
    nextKey ["a", "b"] 2 = Except.error PyErr.stopIteration ∧
    crawlerInit ["a", "b"] 10 false = Except.ok ⟨1, "a", 10, false⟩ ∧
    responseModel (fun b : Bool => b) ["a", "b"] "channels" 1
        [ApiOutcome.httpError 403] 2 "b" = LoopResult.raised PyErr.stopIteration :=
  ⟨Eq.trans ((key_pool_rotation Bool ["a", "b"] 1).1 (by decide)) (by decide),
   (key_pool_rotation Bool ["a", "b"] 2).2.1 (by decide),
   (key_pool_rotation Bool ["a", "b"] 1).2.2.1 10 false "a" ["b"] rfl,
   (key_pool_rotation Bool ["a", "b"] 2).2.2.2 (fun b => b) "channels" 0
     [] "b" (by decide) (by decide)⟩

/-- C10: on a resource name other than channels, search, videos and
playlistitems, no branch of the retry loop ever assigns a response and no
API call is issued: for every iteration budget the loop is still spinning
with the trace unconsumed and the key state untouched, never returning. -/
theorem response_unknown_resource {Resp : Type} (truthy : Resp → Bool)
    (api_key_list : List String) (resource : String)
    (h : knownResource resource = false) :
    ∀ (fuel : Nat) (trace : List (ApiOutcome Resp)) (idx : Nat) (client : String),
      responseModel truthy api_key_list resource fuel trace idx client =
        .spinning idx client := by
  intro fuel
  induction fuel with
  | zero =>
    intro trace idx client
    rfl
  | succ fuel ih =>
    intro trace idx client
    unfold responseModel
    simp only [h, Bool.false_eq_true, if_false]
    exact ih trace idx client

/-- Witness for C10 at a concrete unsupported resource name. -/
theorem response_unknown_resource_witness :
    responseModel (fun b : Bool => b) ["k"] "comments" 5 [ApiOutcome.success true] 0 "k" =
      LoopResult.spinning 0 "k" :=
  response_unknown_resource (fun b : Bool => b) ["k"] "comments" (by decide) 5
    [ApiOutcome.success true] 0 "k"

/-- The statistics sub-object of one item of a channels.list response with
part=statistics, as read by channel_countstats (lines 154-175). -/
structure ChannelStatistics where
  hiddenSubscriberCount : Bool
  subscriberCount : String
  viewCount : String
  videoCount : String
  deriving DecidableEq, Repr

/-- One item of a channels.list response: its id and statistics. -/
structure ChannelStatsItem where
  id : String
  statistics : ChannelStatistics
  deriving DecidableEq, Repr

/-- One record appended to result_list by channel_countstats. -/
structure CountStats where
  ch_id : String
  subscriberCount : Option Int
  viewCount : Int
  videoCount : Int
  sub_view_ratio : Option Rat
  deriving DecidableEq, Repr

/-- Embedding of the for-loop of channel_countstats (lines 154-179).  The
local variable view_count has function scope in Python and is only assigned
at line 174, after line 170 has already read it; prevView carries its value
from the previous iteration, Option.none meaning not yet bound, in which
case the read raises NameError (line 169 catches only ZeroDivisionError).
Division is Python float division, modelled exactly over the rationals. -/
def channelCountstatsLoop :
    List ChannelStatsItem → Option Int → List CountStats → Except PyErr (List CountStats)
  | [], _, result_list => .ok result_list
  | item :: rest, prevView, result_list =>
    let stat := item.statistics
    if stat.hiddenSubscriberCount then
      match pyInt stat.viewCount with
      | .error e => .error e
      | .ok view_count =>
        match pyInt stat.videoCount with
        | .error e => .error e
        | .ok video_count =>
          channelCountstatsLoop rest (some view_count)
            (result_list ++ [⟨item.id, Option.none, view_count, video_count, Option.none⟩])
    else
      match pyInt stat.subscriberCount with
      | .error e => .error e
      | .ok subscriber_count =>
        match prevView with
        | Option.none => .error (.nameError "view_count")
        | some staleView =>
          let ratio : Option Rat :=
            if subscriber_count = 0 then Option.none
            else some ((staleView : Rat) / (subscriber_count : Rat))
          match pyInt stat.viewCount with
          | .error e => .error e
          | .ok view_count =>
            match pyInt stat.videoCount with
            | .error e => .error e
            | .ok video_count =>
              channelCountstatsLoop rest (some view_count)
                (result_list ++
                  [⟨item.id, some subscriber_count, view_count, video_count, ratio⟩])

/-- Embedding of channel_countstats (lines 132-181), given the items list
of the channels.list response obtained through the response method: builds
result_list over the items with view_count initially unbound. -/
def channel_countstats (items : List ChannelStatsItem) : Except PyErr (List CountStats) :=
  channelCountstatsLoop items Option.none []

theorem channelCountstatsLoop_ok_shape :
    ∀ (items : List ChannelStatsItem) (prevView : Option Int)
      (acc res : List CountStats),
      channelCountstatsLoop items prevView acc = .ok res →
      ∃ tail, res = acc ++ tail ∧ tail.length = items.length ∧
        ∀ (i : Nat) (item : ChannelStatsItem) (rec : CountStats),
          items[i]? = some item → tail[i]? = some rec →
          item.statistics.hiddenSubscriberCount = true →
          rec.subscriberCount = Option.none ∧ rec.sub_view_ratio = Option.none := by
  intro items
  induction items with
  | nil =>
    intro prevView acc res h
    refine ⟨[], ?_, by simp, ?_⟩
    · simpa [channelCountstatsLoop] using h.symm
    · intro i item rec hi
      simp at hi
  | cons item rest ih =>
    intro prevView acc res h
    unfold channelCountstatsLoop at h
    by_cases hh : item.statistics.hiddenSubscriberCount
    · simp only [hh, if_true] at h
      cases hvc : pyInt item.statistics.viewCount with
      | error e => rw [hvc] at h; exact absurd h (by simp)
      | ok view_count =>
        rw [hvc] at h
        cases hdc : pyInt item.statistics.videoCount with
        | error e => rw [hdc] at h; exact absurd h (by simp)
        | ok video_count =>
          rw [hdc] at h
          obtain ⟨tail, htail, hlen, hprop⟩ := ih _ _ _ h
          refine ⟨⟨item.id, Option.none, view_count, video_count, Option.none⟩ :: tail,
            by simpa using htail, by simpa using hlen, ?_⟩
          intro i it rec hit hrec hhid
          cases i with
          | zero =>
            simp only [List.getElem?_cons_zero, Option.some_inj] at hit hrec
            subst hit; subst hrec
            exact ⟨rfl, rfl⟩
          | succ i =>
            simp only [List.getElem?_cons_succ] at hit hrec
            exact hprop i it rec hit hrec hhid
    · simp only [hh, if_false] at h
      cases hsc : pyInt item.statistics.subscriberCount with
      | error e => rw [hsc] at h; exact absurd h (by simp)
      | ok subscriber_count =>
        rw [hsc] at h
        cases prevView with
        | none => exact absurd h (by simp)
        | some staleView =>
          simp only at h
          cases hvc : pyInt item.statistics.viewCount with
          | error e => rw [hvc] at h; exact absurd h (by simp)
          | ok view_count =>
            rw [hvc] at h
            cases hdc : pyInt item.statistics.videoCount with
            | error e => rw [hdc] at h; exact absurd h (by simp)
            | ok video_count =>
              rw [hdc] at h
              obtain ⟨tail, htail, hlen, hprop⟩ := ih _ _ _ h
              refine ⟨⟨item.id, some subscriber_count, view_count, video_count,
                if subscriber_count = 0 then Option.none
                else some ((staleView : Rat) / (subscriber_count : Rat))⟩ :: tail,
                by simpa using htail, by simpa using hlen, ?_⟩
              intro i it rec hit hrec hhid
              cases i with
              | zero =>
                simp only [List.getElem?_cons_zero, Option.some_inj] at hit
                subst hit
                exact absurd hhid hh
              | succ i =>
                simp only [List.getElem?_cons_succ] at hit hrec
                exact hprop i it rec hit hrec hhid

/-- C7: whenever channel_countstats returns a result list, it has one record
per input item, and every record whose input statistics have
hiddenSubscriberCount = true carries subscriberCount = None and
sub_view_ratio = None, regardless of the other fields of that item. -/
theorem channel_countstats_hidden (items : List ChannelStatsItem) (res : List CountStats)
    (h : channel_countstats items = .ok res) :
    res.length = items.length ∧
    ∀ (i : Nat) (item : ChannelStatsItem) (rec : CountStats),
      items[i]? = some item → res[i]? = some rec →
      item.statistics.hiddenSubscriberCount = true →
      rec.subscriberCount = Option.none ∧ rec.sub_view_ratio = Option.none := by
  obtain ⟨tail, htail, hlen, hprop⟩ :=
    channelCountstatsLoop_ok_shape items Option.none [] res h
  subst htail
  exact ⟨hlen, hprop⟩

/-- Witness for C7 at a concrete single hidden-subscriber item. -/
theorem channel_countstats_hidden_witness :
    ([⟨"c", Option.none, 10, 2, Option.none⟩] : List CountStats).length =
      ([⟨"c", ⟨true, "0", "10", "2"⟩⟩] : List ChannelStatsItem).length ∧
    ∀ (i : Nat) (item : ChannelStatsItem) (rec : CountStats),
      ([⟨"c", ⟨true, "0", "10", "2"⟩⟩] : List ChannelStatsItem)[i]? = some item →
      ([⟨"c", Option.none, 10, 2, Option.none⟩] : List CountStats)[i]? = some rec →
      item.statistics.hiddenSubscriberCount = true →
      rec.subscriberCount = Option.none ∧ rec.sub_view_ratio = Option.none :=
  channel_countstats_hidden [⟨"c", ⟨true, "0", "10", "2"⟩⟩]
    [⟨"c", Option.none, 10, 2, Option.none⟩] (by decide)

/-- C3 is refuted on the code as written: on a single-item response with
hiddenSubscriberCount = false, subscriberCount 100 and viewCount 500, the
call does not return ratio 5.0; it raises NameError, because line 170 reads
the local view_count before line 174 first assigns it, and only
ZeroDivisionError is caught.  When an earlier iteration has bound
view_count, the ratio of a later record is computed from that stale value
(999 here), not from the record viewCount of 500. -/
theorem channel_countstats_ratio_bug :
    channel_countstats [⟨"ch1", ⟨false, "100", "500", "7"⟩⟩] =
      .error (.nameError "view_count") ∧
    channel_countstats
        [⟨"ch0", ⟨true, "0", "999", "1"⟩⟩, ⟨"ch1", ⟨false, "100", "500", "7"⟩⟩] =
      .ok [⟨"ch0", Option.none, 999, 1, Option.none⟩,
           ⟨"ch1", some 100, 500, 7,
            some (((999 : Int) : Rat) / ((100 : Int) : Rat))⟩] ∧
    ((999 : Int) : Rat) / ((100 : Int) : Rat) ≠ ((500 : Int) : Rat) / ((100 : Int) : Rat) :=
  ⟨rfl, rfl, by norm_num⟩

/-- The resourceId sub-object of a playlist item snippet. -/
structure ResourceId where
  videoId : String
  deriving DecidableEq, Repr

/-- The snippet of one playlistItems.list item, as read by the comprehension
at lines 215-222. -/
structure PlaylistItemSnippet where
  channelId : String
  resourceId : ResourceId
  title : String
  description : String
  publishedAt : String
  thumbnails : String
  deriving DecidableEq, Repr

/-- One item of a playlistItems.list response. -/
structure PlaylistItem where
  snippet : PlaylistItemSnippet
  deriving DecidableEq, Repr

/-- One playlistItems.list response: its items and its optional
nextPageToken key; absence of the key ends the pagination. -/
structure PlaylistResponse where
  items : List PlaylistItem
  nextPageToken : Option String
  deriving DecidableEq, Repr

/-- The dictionary built from one item by the comprehension at lines
215-222. -/
structure VideoInfo where
  channelId : String
  videoId : String
  title : String
  description : String
  publishedAt : String
  thumbnails : String
  deriving DecidableEq, Repr

/-- The mapping of one playlist item to its video dictionary (lines
215-222). -/
def videoDictOf (item : PlaylistItem) : VideoInfo :=
  ⟨item.snippet.channelId, item.snippet.resourceId.videoId, item.snippet.title,
   item.snippet.description, item.snippet.publishedAt, item.snippet.thumbnails⟩

/-- The keyword arguments of one playlistitems call issued by the video-desc
method (lines 210-213). -/
structure PlaylistCall where
  playlistId : String
  part : String
  maxResults : Nat
  pageToken : String
  deriving DecidableEq, Repr

/-- The dictionary returned by the video-desc method (lines 231-235). -/
structure VideoDescResult where
  ch_id : String
  upload_id : String
  video_info_list : List VideoInfo
  deriving DecidableEq, Repr

/-- Embedding of the while-loop of the video-desc method (lines 205-235),
run against a scripted trace of playlistitems responses, each being the
value one response-method call returns.  Per iteration it issues one call
carrying playlistId = upload_id, part = snippet, maxResults = 50 and the
current page token, extends the accumulator with the mapped items, goes on
with the new token while the response has a nextPageToken key, and returns
otherwise.  It returns the issued calls along with the result;
Option.none signals a trace shorter than the loop needs. -/
def videoDescLoop (ch_id upload_id : String) :
    List PlaylistResponse → String → List VideoInfo →
    Option (VideoDescResult × List PlaylistCall)
  | [], _, _ => Option.none
  | response :: rest, next_page_token, acc =>
    match response.nextPageToken with
    | some token =>
      match videoDescLoop ch_id upload_id rest token
          (acc ++ response.items.map videoDictOf) with
      | some (result, calls) =>
        some (result, (⟨upload_id, "snippet", 50, next_page_token⟩ : PlaylistCall) :: calls)
      | Option.none => Option.none
    | Option.none =>
      some (⟨ch_id, upload_id, acc ++ response.items.map videoDictOf⟩,
        [⟨upload_id, "snippet", 50, next_page_token⟩])

/-- Embedding of the video-desc method: the loop starts with the empty page
token and the empty accumulator. -/
def video_desc (ch_id upload_id : String) (trace : List PlaylistResponse) :
    Option (VideoDescResult × List PlaylistCall) :=
  videoDescLoop ch_id upload_id trace "" []

/-- The calls C2 predicts for a run whose token-bearing responses are
front: one call per response, page size 50 and part snippet throughout, the
first with the empty initial token and each later one with the token of the
previous response. -/
def expectedCalls (upload_id : String) (front : List PlaylistResponse) :
    List PlaylistCall :=
  ("" :: front.map (fun r => r.nextPageToken.getD "")).map
    (fun token => ⟨upload_id, "snippet", 50, token⟩)

theorem videoDescLoop_spec (ch_id upload_id : String) :
    ∀ (front : List PlaylistResponse) (last : PlaylistResponse)
      (token : String) (acc : List VideoInfo),
      (∀ r ∈ front, r.nextPageToken.isSome) →
      last.nextPageToken = Option.none →
      videoDescLoop ch_id upload_id (front ++ [last]) token acc =
        some (⟨ch_id, upload_id,
          acc ++ ((front ++ [last]).map (fun r => r.items.map videoDictOf)).flatten⟩,
          (token :: front.map (fun r => r.nextPageToken.getD "")).map
            (fun t => ⟨upload_id, "snippet", 50, t⟩)) := by
  intro front
  induction front with
  | nil =>
    intro last token acc hfront hlast
    simp only [List.nil_append]
    unfold videoDescLoop
    rw [hlast]
    simp
  | cons r front ih =>
    intro last token acc hfront hlast
    have hr : r.nextPageToken.isSome := hfront r (by simp)
    obtain ⟨t, ht⟩ := Option.isSome_iff_exists.mp hr
    simp only [List.cons_append]
    unfold videoDescLoop
    rw [ht]
    have hih := ih last t (acc ++ r.items.map videoDictOf)
      (fun x hx => hfront x (by simp [hx])) hlast
    simp only [hih]
    simp [ht, List.append_assoc]

/-- C2: for every scripted sequence of playlistitems responses in which
exactly the last one lacks the nextPageToken key, the video-desc pagination
loop issues exactly one call per response, each on the upload playlist with
page size 50 and part snippet, the first with the empty initial cursor and
each subsequent one with the cursor of the previous response; it
accumulates the mapped items of every page in order, terminates on the
first response without a token, which is one call beyond the last
token-bearing response, and returns the accumulated list together with the
channel and upload-playlist ids. -/
theorem video_desc_pagination (ch_id upload_id : String)
    (front : List PlaylistResponse) (last : PlaylistResponse)
    (hfront : ∀ r ∈ front, r.nextPageToken.isSome)
    (hlast : last.nextPageToken = Option.none) :
    video_desc ch_id upload_id (front ++ [last]) =
      some (⟨ch_id, upload_id,
        ((front ++ [last]).map (fun r => r.items.map videoDictOf)).flatten⟩,
        expectedCalls upload_id front) ∧
    (expectedCalls upload_id front).length = front.length + 1 ∧
    ∀ c ∈ expectedCalls upload_id front,
      c.playlistId = upload_id ∧ c.part = "snippet" ∧ c.maxResults = 50 := by
  refine ⟨?_, by simp [expectedCalls], ?_⟩
  · have h := videoDescLoop_spec ch_id upload_id front last "" [] hfront hlast
    simpa [video_desc, expectedCalls] using h
  · intro c hc
    unfold expectedCalls at hc
    simp only [List.mem_map] at hc
    obtain ⟨t, _, hct⟩ := hc
    subst hct
    exact ⟨rfl, rfl, rfl⟩

/-- A sample token-bearing playlistitems page. -/
def samplePage1 : PlaylistResponse :=
  ⟨[⟨⟨"ch", ⟨"v1"⟩, "t1", "d1", "p1", "h1"⟩⟩], some "T"⟩

/-- A sample final playlistitems page without a nextPageToken key. -/
def samplePage2 : PlaylistResponse :=
  ⟨[⟨⟨"ch", ⟨"v2"⟩, "t2", "d2", "p2", "h2"⟩⟩], Option.none⟩

/-- Witness for C2 at a concrete two-page trace. -/
theorem video_desc_pagination_witness :
    video_desc "ch" "up" ([samplePage1] ++ [samplePage2]) =
      some (⟨"ch", "up",
        (([samplePage1] ++ [samplePage2]).map (fun r => r.items.map videoDictOf)).flatten⟩,
        expectedCalls "up" [samplePage1]) ∧
    (expectedCalls "up" [samplePage1]).length = [samplePage1].length + 1 ∧
    ∀ c ∈ expectedCalls "up" [samplePage1],
      c.playlistId = "up" ∧ c.part = "snippet" ∧ c.maxResults = 50 :=
  video_desc_pagination "ch" "up" [samplePage1] samplePage2 (by decide) rfl

/-- One element of the dictionary array statistics_sum is meant to receive:
a dictionary with a statistics key holding a string-to-string dictionary. -/
structure StatRecord where
  statistics : List (String × String)
  deriving DecidableEq, Repr

/-- Lookup in a Python dict modelled as an insertion-ordered association
list with pairwise distinct keys. -/
def dictGet (d : List (String × Int)) (k : String) : Option Int :=
  (d.find? (fun kv => kv.1 == k)).map (fun kv => kv.2)

/-- Python assignment d[k] = v: update in place when the key exists,
append at the end otherwise. -/
def dictSet (d : List (String × Int)) (k : String) (v : Int) : List (String × Int) :=
  if d.any (fun kv => kv.1 == k) then
    d.map (fun kv => if kv.1 == k then (k, v) else kv)
  else d ++ [(k, v)]

/-- Python d.pop(k): remove the entry with the key. -/
def dictPop (d : List (String × Int)) (k : String) : List (String × Int) :=
  d.filter (fun kv => kv.1 != k)

/-- The accumulation loops of statistics_sum (lines 372-386) over one
record of a collection: every value passing isdigit is added into vsc_sum
under its key (initialising the key on first sight); other values are
skipped. -/
def sumInto (vsc_sum : List (String × Int)) (stats : List (String × String)) :
    List (String × Int) :=
  stats.foldl
    (fun acc kv =>
      if pyIsdigit kv.2 then
        match dictGet acc kv.1 with
        | some old => dictSet acc kv.1 (old + ((parseDigits kv.2.data).getD 0 : Int))
        | Option.none => dictSet acc kv.1 ((parseDigits kv.2.data).getD 0 : Int)
      else acc)
    vsc_sum

/-- The rename loop of statistics_sum (lines 388-392): for every key the
summed dict held, store its value under key plus the _sum suffix and pop
the plain key.  The read value cannot be missing, because the visited keys
come from the dict itself, are pairwise distinct, and neither operation of
an earlier step removes a later plain key; the unreachable KeyError branch
of Python is modelled by the default 0. -/
def renameSums (vsc_sum : List (String × Int)) : List (String × Int) :=
  (vsc_sum.map (fun kv => kv.1)).foldl
    (fun acc key => dictPop (dictSet acc (key ++ "_sum") ((dictGet acc key).getD 0)) key)
    vsc_sum

/-- What the body of statistics_sum (lines 370-394) computes over a
collection vsc: digit-string fields summed per key across the records,
each key renamed with the _sum suffix, non-digit values skipped. -/
def statisticsSumBody (vsc : List StatRecord) : List (String × Int) :=
  renameSums (vsc.foldl (fun acc vs => sumInto acc vs.statistics) [])

/-- Embedding of statistics_sum (lines 355-394): the method receives args,
but its loop at line 372 iterates over the name vsc, which is defined
nowhere, neither locally nor at module level, so every call raises
NameError before args is ever read.  The dead body below the broken loop
is statisticsSumBody. -/
def statistics_sum (args : List StatRecord) : Except PyErr (List (String × Int)) :=
  .error (.nameError "vsc")

/-- C4 is refuted on the code as written, while describing the intended
behaviour: statistics_sum never sums its argument, because its loop
iterates over the undefined name vsc and every call therefore raises
NameError; had the loop iterated over the supplied argument, the body
would return each digit-valued key renamed with the _sum suffix and mapped
to the sum of its values over the argument, with no entry for the
non-numeric field. -/
theorem statistics_sum_undefined_vsc :
    (∀ args : List StatRecord, statistics_sum args = .error (.nameError "vsc")) ∧
    statisticsSumBody
        [⟨[("viewCount", "5")]⟩, ⟨[("viewCount", "7"), ("note", "abc")]⟩] =
      [("viewCount_sum", 12)] :=
  ⟨fun _ => rfl, by decide⟩
